import Mathlib

/-!
Verification development for the claude-go interaction mediator.

The repository's visible sources (`scripts/test-ui.py`, `scripts/test-ui-buttons.py`,
`scripts/explore.py`, `scripts/inspect-session.py`) are the test harness; the mediator
core they exercise (Interaction Store, Permission Channel, Panel Controller,
Keystroke Translator) is described by the specification.  The definitions below are a
shallow embedding of that core, modelled from the specification where the core's own
code is absent from the repository, and embedding literally the data the test scripts
pin down (sentinel strings, scenario inputs, expected outcomes).
-/

namespace ClaudeGo

/-- Modelled from the spec: the error taxonomy of section 7 (the mediator core that
raises these errors is not in the repository; only the test harness is). -/
inductive UIError where
  | DuplicateIdError
  | NotFoundError
  | AlreadyAnsweredError
  | StaleActiveUnitError
  | DeliveryTimeoutError
deriving DecidableEq, Repr

instance : DecidableEq (Except UIError Unit)
  | .ok (), .ok () => isTrue rfl
  | .ok (), .error _ => isFalse fun h => by cases h
  | .error _, .ok () => isFalse fun h => by cases h
  | .error e, .error f =>
      match decEq e f with
      | isTrue h => isTrue (by rw [h])
      | isFalse h => isFalse fun hh => h (by cases hh; rfl)

/-- Modelled from the spec: an Option of a Question — `{label, description}`,
immutable and display-only beyond its index. -/
structure QOption where
  label : String
  description : String
deriving DecidableEq, Repr

/-- Modelled from the spec: a permission decision `approve`, `deny` or `always-allow`. -/
inductive Decision where
  | approve
  | deny
  | alwaysAllow
deriving DecidableEq, Repr

/-- Modelled from the spec: a resolution payload — selected option index or indices,
plan approve/reject, or a free-text "other" answer. -/
inductive Resolution where
  | single (optionIndex : Nat)
  | multi (selectedIndices : List Nat)
  | planApprove
  | planReject
  | other (text : String)
deriving DecidableEq, Repr

/-- Modelled from the spec: a Question of a QuestionSet, with monotonic `answered`
state, a toggled selection set for multi-select questions, the stored resolution
payload, and a creation sequence number recording arrival order. -/
structure Question where
  id : String
  header : String
  text : String
  options : List QOption
  multiSelect : Bool
  answered : Bool
  selection : List Nat
  resolution : Option Resolution
  seq : Nat
deriving DecidableEq, Repr

/-- Modelled from the spec: a QuestionSet derived from one `AskUserQuestion` tool-use
block; question order is significant and fixed at creation. -/
structure QuestionSet where
  toolUseId : String
  questions : List Question
deriving DecidableEq

/-- Modelled from the spec: a Plan derived from one `ExitPlanMode` tool-use block. -/
structure Plan where
  id : String
  text : String
  answered : Bool
  approved : Option Bool
  seq : Nat
deriving DecidableEq

/-- Modelled from the spec: a PermissionRequest, arriving independently of the
transcript, with monotonic `resolved` state and a creation sequence number. -/
structure PermissionRequest where
  toolUseId : String
  sessionId : String
  toolName : String
  toolInput : String
  receivedAt : Nat
  resolved : Bool
  decision : Option Decision
  seq : Nat
deriving DecidableEq

/-- Modelled from the spec: a unit of the Interaction Store — a QuestionSet or a Plan. -/
inductive StoreUnit where
  | qset (qs : QuestionSet)
  | plan (p : Plan)
deriving DecidableEq

/-- Modelled from the spec: the input payload of one question inside an
`AskUserQuestion` tool-use block, as injected by the test harness. -/
structure QuestionInput where
  question : String
  header : String
  options : List QOption
  multiSelect : Bool
deriving DecidableEq

/-- Modelled from the spec: a content block, a tagged union over `Text`, the two
interaction-producing tool uses, and opaque content for unknown tool names. -/
inductive ContentBlock where
  | text (s : String)
  | askUserQuestion (toolUseId : String) (questions : List QuestionInput)
  | exitPlanMode (toolUseId : String) (plan : String)
  | otherTool (toolUseId : String) (name : String) (raw : String)
deriving DecidableEq

/-- Modelled from the spec: a message role. -/
inductive Role where
  | user
  | assistant
deriving DecidableEq, Repr

/-- Modelled from the spec: a transcript Message. -/
structure Message where
  uuid : String
  role : Role
  pending : Bool
  content : List ContentBlock
deriving DecidableEq

/-- Modelled from the spec: the input payload of a permission request, as injected by
the test harness (`tool_use_id`, `session_id`, `tool_name`, `tool_input`,
`received_at`). -/
structure PermRequestInput where
  toolUseId : String
  sessionId : String
  toolName : String
  toolInput : String
  receivedAt : Nat
deriving DecidableEq

/-- Modelled from the spec: the per-session state — transcript, Interaction Store
(`interactions`), Permission Channel (`permissions` plus `standingRules`), the
creation-sequence counter, and the log of keystroke dispatches written to the
process's input. -/
structure SessionState where
  transcript : List Message
  interactions : List StoreUnit
  permissions : List PermissionRequest
  standingRules : List String
  nextSeq : Nat
  dispatches : List (List String)
deriving DecidableEq

/-- Modelled from the spec: the empty session state. -/
def initialState : SessionState :=
  { transcript := [], interactions := [], permissions := [],
    standingRules := [], nextSeq := 0, dispatches := [] }

/-- The questions a store unit carries. -/
def unitQuestions : StoreUnit → List Question
  | .qset qs => qs.questions
  | .plan _ => []

/-- The plans a store unit carries. -/
def unitPlans : StoreUnit → List Plan
  | .qset _ => []
  | .plan p => [p]

/-- All questions of the Interaction Store, in creation order. -/
def allQuestions (s : SessionState) : List Question :=
  (s.interactions.map unitQuestions).flatten

/-- All plans of the Interaction Store, in creation order. -/
def allPlans (s : SessionState) : List Plan :=
  (s.interactions.map unitPlans).flatten

/-- Whether the question with the given id is recorded as answered. -/
def questionAnswered (s : SessionState) (id : String) : Bool :=
  (allQuestions s).any fun q => q.id == id && q.answered

/-- Whether the plan with the given id is recorded as answered. -/
def planAnswered (s : SessionState) (id : String) : Bool :=
  (allPlans s).any fun p => p.id == id && p.answered

/-- Whether the permission request with the given tool-use id is resolved. -/
def permResolved (s : SessionState) (tid : String) : Bool :=
  s.permissions.any fun p => p.toolUseId == tid && p.resolved

/-- Look up a question by id (first match in creation order). -/
def findQuestion (s : SessionState) (id : String) : Option Question :=
  (allQuestions s).find? fun q => q.id == id

/-- Look up a plan by id (first match in creation order). -/
def findPlan (s : SessionState) (id : String) : Option Plan :=
  (allPlans s).find? fun p => p.id == id

/-- Modelled from the spec: `listPending()` of the Permission Channel — the ordered
sequence of unresolved requests. -/
def listPending (s : SessionState) : List PermissionRequest :=
  s.permissions.filter fun p => !p.resolved

/-- Modelled from the spec: a pending unit as produced by the Interaction Store's
`pending()`. -/
inductive PendingUnit where
  | q (question : Question)
  | pl (p : Plan)
deriving DecidableEq

/-- The pending units one store unit contributes to `pending()`. -/
def unitPending : StoreUnit → List PendingUnit
  | .qset qs => (qs.questions.filter fun q => !q.answered).map PendingUnit.q
  | .plan p => if p.answered then [] else [PendingUnit.pl p]

/-- Modelled from the spec: `pending()` of the Interaction Store — currently
unanswered units across all QuestionSets and Plans, ordered by creation. -/
def pendingInteractions (s : SessionState) : List PendingUnit :=
  (s.interactions.map unitPending).flatten

/-- Modelled from the spec: a candidate active unit of the Panel Controller. -/
inductive ActiveUnit where
  | question (q : Question)
  | plan (p : Plan)
  | permission (r : PermissionRequest)
deriving DecidableEq

/-- The creation sequence number of an active unit. -/
def ActiveUnit.seq : ActiveUnit → Nat
  | .question q => q.seq
  | .plan p => p.seq
  | .permission r => r.seq

/-- The candidate active unit one store unit contributes — for a QuestionSet its
next unanswered Question, for a Plan itself while unanswered. -/
def unitCandidate : StoreUnit → Option ActiveUnit
  | .qset qs => (qs.questions.find? fun q => !q.answered).map ActiveUnit.question
  | .plan p => if p.answered then none else some (ActiveUnit.plan p)

/-- Modelled from the spec: the candidates the Panel Controller selects among — for
each QuestionSet its next unanswered Question, every unanswered Plan, and every
unresolved PermissionRequest, listed in arrival order. -/
def candidates (s : SessionState) : List ActiveUnit :=
  s.interactions.filterMap unitCandidate
    ++ (listPending s).map ActiveUnit.permission

/-- The first element of minimal sequence number: a later element replaces the
current choice only when its sequence number is strictly smaller, so ties go to
arrival order. -/
def minSeqFirst : List ActiveUnit → Option ActiveUnit
  | [] => none
  | u :: rest =>
    match minSeqFirst rest with
    | none => some u
    | some v => if v.seq < u.seq then some v else some u

/-- Modelled from the spec: `activate()` of the Panel Controller — the
earliest-created unresolved unit across both stores, ties broken by arrival order,
or none when nothing is pending. -/
def activate (s : SessionState) : Option ActiveUnit :=
  minSeqFirst (candidates s)

/-- Apply a question transformer inside one store unit. -/
def liftQ (f : Question → Question) : StoreUnit → StoreUnit
  | .qset qs => .qset { qs with questions := qs.questions.map f }
  | .plan p => .plan p

/-- Apply a plan transformer inside one store unit. -/
def liftP (f : Plan → Plan) : StoreUnit → StoreUnit
  | .qset qs => .qset qs
  | .plan p => .plan (f p)

/-- Apply a question transformer inside every QuestionSet of the store. -/
def mapQuestions (f : Question → Question) (s : SessionState) : SessionState :=
  { s with interactions := s.interactions.map (liftQ f) }

/-- Apply a plan transformer to every plan of the store. -/
def mapPlans (f : Plan → Plan) (s : SessionState) : SessionState :=
  { s with interactions := s.interactions.map (liftP f) }

/-- Mark the question with the given id answered and store its resolution payload;
every other question is unchanged. -/
def markQuestion (id : String) (r : Resolution) (q : Question) : Question :=
  if q.id == id then { q with answered := true, resolution := some r } else q

/-- Mark the plan with the given id answered and store the approve/reject decision. -/
def markPlan (id : String) (approve : Bool) (p : Plan) : Plan :=
  if p.id == id then { p with answered := true, approved := some approve } else p

/-- Mark the permission request with the given tool-use id resolved with the given
decision. -/
def markPerm (tid : String) (d : Decision) (p : PermissionRequest) : PermissionRequest :=
  if p.toolUseId == tid then { p with resolved := true, decision := some d } else p

/-- Toggle membership of an index in a selection set: deselect a selected index,
append a new one in click order. -/
def toggleSel (i : Nat) (sel : List Nat) : List Nat :=
  if sel.contains i then sel.filter (fun j => j != i) else sel ++ [i]

/-- Toggle an option index of the multi-select question with the given id, when it
is still unanswered; answered questions and single-select questions keep their
selection unchanged. -/
def toggleMark (id : String) (i : Nat) (q : Question) : Question :=
  if q.id == id && q.multiSelect && !q.answered then
    { q with selection := toggleSel i q.selection }
  else q

/-- Modelled from the spec: the Keystroke Translator's key sequence for a resolution
— navigate-to-index-then-confirm for single-select, toggle-sequence-then-confirm
for multi-select, a fixed accept/reject sequence for plans, typed text for an
"other" answer. -/
def translate : Resolution → List String
  | .single i => List.replicate i "down" ++ ["enter"]
  | .multi sel =>
      (sel.map fun i => "toggle" ++ toString i) ++ ["enter"]
  | .planApprove => ["accept"]
  | .planReject => ["reject"]
  | .other msg => [msg, "enter"]

/-- Whether `needle` occurs as a contiguous run inside `hay`. -/
def occursIn (needle : List Char) : List Char → Bool
  | [] => needle.isEmpty
  | c :: rest => needle.isPrefixOf (c :: rest) || occursIn needle rest

/-- Whether the second string occurs as a substring of the first. -/
def strContains (hay needle : String) : Bool :=
  occursIn needle.toList hay.toList

/-- The sentinel marking an outstanding selection prompt in the agent process's
rendered pane, as probed by the test scripts' tmux capture. -/
def sentinel : String := "Enter to select"

/-- Whether a captured pane still shows the outstanding selection prompt. -/
def hasPrompt (pane : String) : Bool := strContains pane sentinel

/-- Modelled from the spec: the Keystroke Translator's bounded reconciliation poll —
the dispatch counts as delivered when some poll of the window no longer shows the
sentinel; otherwise a `DeliveryTimeoutError` is reported. -/
def reconcile (polls : List String) : Except UIError Unit :=
  if polls.any fun p => !hasPrompt p then .ok () else .error .DeliveryTimeoutError

/-- Modelled from the spec: resolving a Question through the store and the Keystroke
Translator — `NotFoundError` on an unknown id, `AlreadyAnsweredError` on a duplicate
resolution attempt before any dispatch; on success the question is marked answered,
exactly one keystroke sequence is dispatched, and the reconciliation result is
surfaced without rolling back the local bookkeeping. -/
def resolveQuestionFull (s : SessionState) (id : String) (r : Resolution)
    (polls : List String) : SessionState × Except UIError Unit :=
  match findQuestion s id with
  | none => (s, .error .NotFoundError)
  | some q =>
    if q.answered then (s, .error .AlreadyAnsweredError)
    else
      let s1 := mapQuestions (markQuestion id r) s
      ({ s1 with dispatches := s1.dispatches ++ [translate r] }, reconcile polls)

/-- Modelled from the spec: resolving a Plan, analogous to question resolution. -/
def resolvePlanFull (s : SessionState) (id : String) (approve : Bool)
    (polls : List String) : SessionState × Except UIError Unit :=
  match findPlan s id with
  | none => (s, .error .NotFoundError)
  | some p =>
    if p.answered then (s, .error .AlreadyAnsweredError)
    else
      let s1 := mapPlans (markPlan id approve) s
      ({ s1 with dispatches :=
          s1.dispatches ++ [translate (if approve then .planApprove else .planReject)] },
        reconcile polls)

/-- Modelled from the spec: `toggle(optionIndex)` on a multi-select question —
purely local selection bookkeeping, no dispatch. -/
def toggleQuestion (s : SessionState) (id : String) (i : Nat) : SessionState :=
  mapQuestions (toggleMark id i) s

/-- Modelled from the spec: `submit(selectedIndices)` on a multi-select question —
resolves it with the submitted selection set. -/
def submitQuestion (s : SessionState) (id : String) (sel : List Nat)
    (polls : List String) : SessionState × Except UIError Unit :=
  resolveQuestionFull s id (.multi sel) polls

/-- Modelled from the spec: `enqueue(request)` of the Permission Channel —
`DuplicateIdError` on a repeated tool-use id; a request matching a standing
always-allow rule is auto-resolved to approve at enqueue, never becoming visible to
the Panel Controller. -/
def enqueuePermission (s : SessionState) (r : PermRequestInput) :
    SessionState × Except UIError Unit :=
  if s.permissions.any fun p => p.toolUseId == r.toolUseId then
    (s, .error .DuplicateIdError)
  else
    let auto := s.standingRules.contains r.toolName
    let p : PermissionRequest :=
      { toolUseId := r.toolUseId, sessionId := r.sessionId, toolName := r.toolName,
        toolInput := r.toolInput, receivedAt := r.receivedAt, resolved := auto,
        decision := if auto then some .approve else none, seq := s.nextSeq }
    ({ s with permissions := s.permissions ++ [p], nextSeq := s.nextSeq + 1 }, .ok ())

/-- Modelled from the spec: `resolve(toolUseId, decision)` of the Permission Channel
— `NotFoundError` when absent or already resolved; marks the request resolved in the
same operation, and an always-allow decision records a standing rule for the tool. -/
def resolvePermission (s : SessionState) (tid : String) (d : Decision) :
    SessionState × Except UIError Unit :=
  match s.permissions.find? fun p => p.toolUseId == tid with
  | none => (s, .error .NotFoundError)
  | some p =>
    if p.resolved then (s, .error .NotFoundError)
    else
      let s1 := { s with permissions := s.permissions.map (markPerm tid d) }
      match d with
      | .alwaysAllow =>
          ({ s1 with standingRules := s1.standingRules ++ [p.toolName] }, .ok ())
      | _ => (s1, .ok ())

/-- Build the question with the given index of a new QuestionSet. -/
def mkQuestion (toolUseId : String) (idx : Nat) (seq : Nat) (qi : QuestionInput) :
    Question :=
  { id := toolUseId ++ "-q" ++ toString idx, header := qi.header, text := qi.question,
    options := qi.options, multiSelect := qi.multiSelect, answered := false,
    selection := [], resolution := none, seq := seq }

/-- The tool-use id a store unit was derived from. -/
def unitToolId : StoreUnit → String
  | .qset qs => qs.toolUseId
  | .plan p => p.id

/-- Register a fresh QuestionSet at the back of the Interaction Store. -/
def appendQuestionSet (s : SessionState) (tid : String) (qins : List QuestionInput) :
    SessionState :=
  let qs : List Question := qins.enum.map fun iq => mkQuestion tid iq.1 (s.nextSeq + iq.1) iq.2
  { s with interactions := s.interactions ++ [.qset ⟨tid, qs⟩],
           nextSeq := s.nextSeq + qins.length }

/-- Register a fresh Plan at the back of the Interaction Store. -/
def appendPlan (s : SessionState) (tid : String) (ptext : String) : SessionState :=
  let p : Plan :=
    { id := "plan-" ++ tid, text := ptext, answered := false,
      approved := none, seq := s.nextSeq }
  { s with interactions := s.interactions ++ [.plan p],
           nextSeq := s.nextSeq + 1 }

/-- Modelled from the spec: ingesting one content block — `AskUserQuestion` registers
a QuestionSet, `ExitPlanMode` registers a Plan, a repeated tool-use id is rejected
with `DuplicateIdError` without mutating state, and other content carries no
interaction semantics. -/
def ingestBlock (s : SessionState) : ContentBlock → SessionState × Except UIError Unit
  | .text _ => (s, .ok ())
  | .otherTool _ _ _ => (s, .ok ())
  | .askUserQuestion tid qins =>
      if s.interactions.any fun u => unitToolId u == tid then
        (s, .error .DuplicateIdError)
      else (appendQuestionSet s tid qins, .ok ())
  | .exitPlanMode tid ptext =>
      if s.interactions.any fun u => unitToolId u == "plan-" ++ tid then
        (s, .error .DuplicateIdError)
      else (appendPlan s tid ptext, .ok ())

/-- Ingest a list of content blocks in order, surfacing the first rejection. -/
def ingestBlocks (s : SessionState) : List ContentBlock → SessionState × Except UIError Unit
  | [] => (s, .ok ())
  | b :: rest =>
    let sr := ingestBlock s b
    let sr' := ingestBlocks sr.1 rest
    (sr'.1, match sr.2 with | .ok _ => sr'.2 | .error e => .error e)

/-- Modelled from the spec: `ingest(message)` — appends the message to the transcript
and registers its interaction units in the Interaction Store synchronously. -/
def ingest (s : SessionState) (m : Message) : SessionState × Except UIError Unit :=
  ingestBlocks { s with transcript := s.transcript ++ [m] } m.content

/-- A user message carrying only free text. -/
def userMessage (uuid text : String) : Message :=
  { uuid := uuid, role := .user, pending := false, content := [.text text] }

/-- Modelled from the spec: sending a free-text message while the panel is showing a
question — a pending single-select question is implicitly resolved as an "other"
answer (the behavior the repository's `test_other_option` asserts), and a pending
multi-select question is submitted with its toggled selection (the send button acts
as Submit). -/
def sendMessageOp (s : SessionState) (uuid text : String) (polls : List String) :
    SessionState × Except UIError Unit :=
  let s0 := { s with transcript := s.transcript ++ [userMessage uuid text] }
  match activate s with
  | some (.question q) =>
      if q.multiSelect then submitQuestion s0 q.id q.selection polls
      else resolveQuestionFull s0 q.id (.other text) polls
  | _ => (s0, .ok ())

/-- Modelled from the spec: the mutating operations serialized by the Session
Coordinator. -/
inductive Op where
  | ingestMsg (m : Message)
  | resolveQ (id : String) (r : Resolution) (polls : List String)
  | resolvePl (id : String) (approve : Bool) (polls : List String)
  | toggleQ (id : String) (i : Nat)
  | submitQ (id : String) (sel : List Nat) (polls : List String)
  | enqueuePerm (r : PermRequestInput)
  | resolvePerm (tid : String) (d : Decision)
  | sendMsg (uuid text : String) (polls : List String)

/-- Modelled from the spec: applying one serialized operation to the session state,
returning the committed state and the surfaced result. -/
def applyOp (s : SessionState) : Op → SessionState × Except UIError Unit
  | .ingestMsg m => ingest s m
  | .resolveQ id r polls => resolveQuestionFull s id r polls
  | .resolvePl id approve polls => resolvePlanFull s id approve polls
  | .toggleQ id i => (toggleQuestion s id i, .ok ())
  | .submitQ id sel polls => submitQuestion s id sel polls
  | .enqueuePerm r => enqueuePermission s r
  | .resolvePerm tid d => resolvePermission s tid d
  | .sendMsg uuid text polls => sendMessageOp s uuid text polls

/-- Well-formedness per the spec's uniqueness invariants: question ids are unique
within the session. -/
def wellFormed (s : SessionState) : Prop :=
  ((allQuestions s).map Question.id).Nodup

/-! ### Concrete scenario states, mirroring the test scripts' injected fixtures -/

/-- The two-question single-select `AskUserQuestion` fixture of `test_multi_question`. -/
def sampleMsg : Message :=
  { uuid := "u1", role := .assistant, pending := false,
    content := [.askUserQuestion "t1"
      [ { question := "Test Q1", header := "First",
          options := [⟨"A", "Option A"⟩, ⟨"B", "Option B"⟩], multiSelect := false },
        { question := "Test Q2", header := "Second",
          options := [⟨"X", "Option X"⟩, ⟨"Y", "Option Y"⟩], multiSelect := false } ] ] }

/-- The first registered question of the two-question fixture, as stored. -/
def sampleQ1 : Question :=
  { id := "t1-q0", header := "First", text := "Test Q1",
    options := [⟨"A", "Option A"⟩, ⟨"B", "Option B"⟩], multiSelect := false,
    answered := false, selection := [], resolution := none, seq := 0 }

/-- The second registered question of the two-question fixture, as stored. -/
def sampleQ2 : Question :=
  { id := "t1-q1", header := "Second", text := "Test Q2",
    options := [⟨"X", "Option X"⟩, ⟨"Y", "Option Y"⟩], multiSelect := false,
    answered := false, selection := [], resolution := none, seq := 1 }

/-- The registered multi-select question of the multi-select fixture, as stored. -/
def multiQ : Question :=
  { id := "tm-q0", header := "Features", text := "Which features do you want?",
    options := [⟨"Auth", "Authentication"⟩, ⟨"API", "REST API"⟩, ⟨"DB", "Database"⟩],
    multiSelect := true, answered := false, selection := [], resolution := none, seq := 0 }

/-- Session state after ingesting the two-question fixture. -/
def sampleState : SessionState := (ingest initialState sampleMsg).1

/-- Session state after resolving the first question with option 0. -/
def sampleResolved : SessionState :=
  (resolveQuestionFull sampleState "t1-q0" (.single 0) ["done"]).1

/-- The multi-select `AskUserQuestion` fixture of `test_multiselect`,
with options `[Auth, API, DB]`. -/
def multiMsg : Message :=
  { uuid := "u2", role := .assistant, pending := false,
    content := [.askUserQuestion "tm"
      [ { question := "Which features do you want?", header := "Features",
          options := [⟨"Auth", "Authentication"⟩, ⟨"API", "REST API"⟩, ⟨"DB", "Database"⟩],
          multiSelect := true } ] ] }

/-- Session state after ingesting the multi-select fixture. -/
def multiState : SessionState := (ingest initialState multiMsg).1

/-- Session state after `toggle(0); toggle(2)` on the multi-select question. -/
def multiToggled : SessionState :=
  toggleQuestion (toggleQuestion multiState "tm-q0" 0) "tm-q0" 2

/-- Session state after submitting the selection `{0, 2}`. -/
def multiSubmitted : SessionState :=
  (submitQuestion multiToggled "tm-q0" [0, 2] ["ok"]).1

/-- The `Bash` permission fixture of `test_multiple_pending_permissions`. -/
def permA : PermRequestInput :=
  { toolUseId := "p1", sessionId := "sess", toolName := "Bash",
    toolInput := "echo test", receivedAt := 100 }

/-- The `Write` permission fixture of `test_multiple_pending_permissions`. -/
def permB : PermRequestInput :=
  { toolUseId := "p2", sessionId := "sess", toolName := "Write",
    toolInput := "/tmp/x", receivedAt := 101 }

/-- Session state after enqueuing the first permission request. -/
def permState1 : SessionState := (enqueuePermission initialState permA).1

/-- Session state after enqueuing both permission requests. -/
def permState2 : SessionState := (enqueuePermission permState1 permB).1

/-! ### Structural lemmas about the store transformers -/

theorem flatten_unitQuestions_liftQ (f : Question → Question) (l : List StoreUnit) :
    ((l.map (liftQ f)).map unitQuestions).flatten
      = ((l.map unitQuestions).flatten).map f := by
  induction l with
  | nil => rfl
  | cons u rest ih =>
      cases u <;> simp only [List.map_cons, List.flatten_cons, liftQ, unitQuestions,
        List.map_append, List.map_nil, List.nil_append, ih]

theorem flatten_unitPlans_liftQ (f : Question → Question) (l : List StoreUnit) :
    ((l.map (liftQ f)).map unitPlans).flatten = (l.map unitPlans).flatten := by
  induction l with
  | nil => rfl
  | cons u rest ih =>
      cases u <;> simp only [List.map_cons, List.flatten_cons, liftQ, unitPlans,
        List.map_append, List.map_nil, List.nil_append, ih]

theorem flatten_unitPlans_liftP (f : Plan → Plan) (l : List StoreUnit) :
    ((l.map (liftP f)).map unitPlans).flatten
      = ((l.map unitPlans).flatten).map f := by
  induction l with
  | nil => rfl
  | cons u rest ih =>
      cases u <;> simp only [List.map_cons, List.flatten_cons, liftP, unitPlans,
        List.map_append, List.map_nil, List.nil_append, ih]

theorem flatten_unitQuestions_liftP (f : Plan → Plan) (l : List StoreUnit) :
    ((l.map (liftP f)).map unitQuestions).flatten = (l.map unitQuestions).flatten := by
  induction l with
  | nil => rfl
  | cons u rest ih =>
      cases u <;> simp only [List.map_cons, List.flatten_cons, liftP, unitQuestions,
        List.map_append, List.map_nil, List.nil_append, ih]

theorem allQuestions_mapQuestions (f : Question → Question) (s : SessionState) :
    allQuestions (mapQuestions f s) = (allQuestions s).map f :=
  flatten_unitQuestions_liftQ f s.interactions

theorem allPlans_mapQuestions (f : Question → Question) (s : SessionState) :
    allPlans (mapQuestions f s) = allPlans s :=
  flatten_unitPlans_liftQ f s.interactions

theorem allPlans_mapPlans (f : Plan → Plan) (s : SessionState) :
    allPlans (mapPlans f s) = (allPlans s).map f :=
  flatten_unitPlans_liftP f s.interactions

theorem allQuestions_mapPlans (f : Plan → Plan) (s : SessionState) :
    allQuestions (mapPlans f s) = allQuestions s :=
  flatten_unitQuestions_liftP f s.interactions

theorem markQuestion_id (id : String) (r : Resolution) (q : Question) :
    (markQuestion id r q).id = q.id := by
  unfold markQuestion; split <;> rfl

theorem toggleMark_id (id : String) (i : Nat) (q : Question) :
    (toggleMark id i q).id = q.id := by
  unfold toggleMark; split <;> rfl

theorem toggleMark_answered (id : String) (i : Nat) (q : Question) :
    (toggleMark id i q).answered = q.answered := by
  unfold toggleMark; split <;> rfl

theorem toggleMark_multiSelect (id : String) (i : Nat) (q : Question) :
    (toggleMark id i q).multiSelect = q.multiSelect := by
  unfold toggleMark; split <;> rfl

theorem markPlan_id (id : String) (a : Bool) (p : Plan) :
    (markPlan id a p).id = p.id := by
  unfold markPlan; split <;> rfl

theorem markPerm_toolUseId (tid : String) (d : Decision) (p : PermissionRequest) :
    (markPerm tid d p).toolUseId = p.toolUseId := by
  unfold markPerm; split <;> rfl

theorem findQuestion_mapQuestions (f : Question → Question)
    (hid : ∀ q, (f q).id = q.id) (s : SessionState) (id : String) :
    findQuestion (mapQuestions f s) id = (findQuestion s id).map f := by
  unfold findQuestion
  rw [allQuestions_mapQuestions, List.find?_map]
  have h : ((fun q : Question => q.id == id) ∘ f) = fun q : Question => q.id == id := by
    funext q
    simp [Function.comp, hid]
  rw [h]

theorem findPlan_mapPlans (f : Plan → Plan)
    (hid : ∀ p, (f p).id = p.id) (s : SessionState) (id : String) :
    findPlan (mapPlans f s) id = (findPlan s id).map f := by
  unfold findPlan
  rw [allPlans_mapPlans, List.find?_map]
  have h : ((fun p : Plan => p.id == id) ∘ f) = fun p : Plan => p.id == id := by
    funext p
    simp [Function.comp, hid]
  rw [h]

theorem allQuestions_dispatch (s : SessionState) (d : List (List String)) :
    allQuestions { s with dispatches := d } = allQuestions s := rfl

theorem findQuestion_transcript (s : SessionState) (t : List Message) (id : String) :
    findQuestion { s with transcript := t } id = findQuestion s id := rfl

/-! ### Monotonicity infrastructure -/

theorem any_mono_map {α : Type} (f : α → α) (p : α → Bool) (l : List α)
    (h : ∀ a, p a = true → p (f a) = true) (hl : l.any p = true) :
    (l.map f).any p = true := by
  rw [List.any_eq_true] at hl
  obtain ⟨x, hx, hpx⟩ := hl
  rw [List.any_eq_true]
  exact ⟨f x, List.mem_map.mpr ⟨x, hx, rfl⟩, h x hpx⟩

theorem any_mono_append {α : Type} (p : α → Bool) (l l' : List α)
    (h : l.any p = true) : (l ++ l').any p = true := by
  rw [List.any_append, h, Bool.true_or]

theorem markQuestion_answered_mono (id : String) (r : Resolution) (q : Question)
    (h : q.answered = true) : (markQuestion id r q).answered = true := by
  unfold markQuestion
  split <;> simp [h]

theorem markPlan_answered_mono (id : String) (a : Bool) (p : Plan)
    (h : p.answered = true) : (markPlan id a p).answered = true := by
  unfold markPlan
  split <;> simp [h]

theorem markPerm_resolved_mono (tid : String) (d : Decision) (p : PermissionRequest)
    (h : p.resolved = true) : (markPerm tid d p).resolved = true := by
  unfold markPerm
  split <;> simp [h]

/-- The local bookkeeping order: every answered question, answered plan and resolved
permission of `s` is still answered or resolved in `s'`. -/
def stateMono (s s' : SessionState) : Prop :=
  (∀ id, questionAnswered s id = true → questionAnswered s' id = true) ∧
  (∀ id, planAnswered s id = true → planAnswered s' id = true) ∧
  (∀ tid, permResolved s tid = true → permResolved s' tid = true)

theorem stateMono_refl (s : SessionState) : stateMono s s :=
  ⟨fun _ h => h, fun _ h => h, fun _ h => h⟩

theorem stateMono_trans {s₁ s₂ s₃ : SessionState}
    (h₁ : stateMono s₁ s₂) (h₂ : stateMono s₂ s₃) : stateMono s₁ s₃ :=
  ⟨fun id h => h₂.1 id (h₁.1 id h),
   fun id h => h₂.2.1 id (h₁.2.1 id h),
   fun tid h => h₂.2.2 tid (h₁.2.2 tid h)⟩

theorem stateMono_mapQuestions (f : Question → Question)
    (hid : ∀ q, (f q).id = q.id)
    (hmono : ∀ q, q.answered = true → (f q).answered = true)
    (s : SessionState) : stateMono s (mapQuestions f s) := by
  refine ⟨fun id h => ?_, fun id h => ?_, fun tid h => h⟩
  · unfold questionAnswered at h ⊢
    rw [allQuestions_mapQuestions]
    refine any_mono_map f _ _ (fun q hq => ?_) h
    rw [Bool.and_eq_true] at hq ⊢
    exact ⟨by rw [hid]; exact hq.1, hmono q hq.2⟩
  · unfold planAnswered at h ⊢
    rw [allPlans_mapQuestions]
    exact h

theorem stateMono_mapPlans (f : Plan → Plan)
    (hid : ∀ p, (f p).id = p.id)
    (hmono : ∀ p, p.answered = true → (f p).answered = true)
    (s : SessionState) : stateMono s (mapPlans f s) := by
  refine ⟨fun id h => ?_, fun id h => ?_, fun tid h => h⟩
  · unfold questionAnswered at h ⊢
    rw [allQuestions_mapPlans]
    exact h
  · unfold planAnswered at h ⊢
    rw [allPlans_mapPlans]
    refine any_mono_map f _ _ (fun p hp => ?_) h
    rw [Bool.and_eq_true] at hp ⊢
    exact ⟨by rw [hid]; exact hp.1, hmono p hp.2⟩

theorem stateMono_dispatch (s : SessionState) (d : List (List String)) :
    stateMono s { s with dispatches := d } :=
  ⟨fun _ h => h, fun _ h => h, fun _ h => h⟩

theorem stateMono_transcript (s : SessionState) (t : List Message) :
    stateMono s { s with transcript := t } :=
  ⟨fun _ h => h, fun _ h => h, fun _ h => h⟩

theorem stateMono_appendInteractions (s : SessionState) (l : List StoreUnit) (n : Nat) :
    stateMono s { s with interactions := s.interactions ++ l, nextSeq := n } := by
  refine ⟨fun id h => ?_, fun id h => ?_, fun tid h => h⟩
  · unfold questionAnswered allQuestions at h ⊢
    simp only [List.map_append, List.flatten_append]
    exact any_mono_append _ _ _ h
  · unfold planAnswered allPlans at h ⊢
    simp only [List.map_append, List.flatten_append]
    exact any_mono_append _ _ _ h

theorem stateMono_appendPerms (s : SessionState) (p : PermissionRequest) (n : Nat) :
    stateMono s { s with permissions := s.permissions ++ [p], nextSeq := n } := by
  refine ⟨fun _ h => h, fun _ h => h, fun tid h => ?_⟩
  unfold permResolved at h ⊢
  exact any_mono_append _ _ _ h

theorem stateMono_markPerms (s : SessionState) (tid : String) (d : Decision)
    (rules : List String) :
    stateMono s { s with permissions := s.permissions.map (markPerm tid d),
                         standingRules := rules } := by
  refine ⟨fun _ h => h, fun _ h => h, fun t h => ?_⟩
  unfold permResolved at h ⊢
  refine any_mono_map (markPerm tid d) _ _ (fun p hp => ?_) h
  rw [Bool.and_eq_true] at hp ⊢
  exact ⟨by rw [markPerm_toolUseId]; exact hp.1, markPerm_resolved_mono tid d p hp.2⟩

theorem stateMono_resolveQuestionFull (s : SessionState) (id : String) (r : Resolution)
    (polls : List String) : stateMono s (resolveQuestionFull s id r polls).1 := by
  unfold resolveQuestionFull
  cases h : findQuestion s id with
  | none => exact stateMono_refl s
  | some q =>
    by_cases hq : q.answered = true
    · simp only [hq, if_true]
      exact stateMono_refl s
    · simp only [Bool.not_eq_true] at hq
      simp only [hq, Bool.false_eq_true, if_false]
      exact stateMono_trans
        (stateMono_mapQuestions (markQuestion id r) (markQuestion_id id r)
          (markQuestion_answered_mono id r) s)
        (stateMono_dispatch _ _)

theorem stateMono_resolvePlanFull (s : SessionState) (id : String) (a : Bool)
    (polls : List String) : stateMono s (resolvePlanFull s id a polls).1 := by
  unfold resolvePlanFull
  cases h : findPlan s id with
  | none => exact stateMono_refl s
  | some p =>
    by_cases hp : p.answered = true
    · simp only [hp, if_true]
      exact stateMono_refl s
    · simp only [Bool.not_eq_true] at hp
      simp only [hp, Bool.false_eq_true, if_false]
      exact stateMono_trans
        (stateMono_mapPlans (markPlan id a) (markPlan_id id a)
          (markPlan_answered_mono id a) s)
        (stateMono_dispatch _ _)

theorem stateMono_toggleQuestion (s : SessionState) (id : String) (i : Nat) :
    stateMono s (toggleQuestion s id i) :=
  stateMono_mapQuestions (toggleMark id i) (toggleMark_id id i)
    (fun q h => by rw [toggleMark_answered]; exact h) s

theorem stateMono_enqueuePermission (s : SessionState) (r : PermRequestInput) :
    stateMono s (enqueuePermission s r).1 := by
  unfold enqueuePermission
  split
  · exact stateMono_refl s
  · exact stateMono_appendPerms s _ _

theorem stateMono_resolvePermission (s : SessionState) (tid : String) (d : Decision) :
    stateMono s (resolvePermission s tid d).1 := by
  unfold resolvePermission
  cases h : s.permissions.find? fun p => p.toolUseId == tid with
  | none => exact stateMono_refl s
  | some p =>
    by_cases hp : p.resolved = true
    · simp only [hp, if_true]
      exact stateMono_refl s
    · simp only [Bool.not_eq_true] at hp
      simp only [hp, Bool.false_eq_true, if_false]
      cases d
      · exact stateMono_markPerms s tid .approve _
      · exact stateMono_markPerms s tid .deny _
      · exact stateMono_markPerms s tid .alwaysAllow _

theorem stateMono_ingestBlock (s : SessionState) (b : ContentBlock) :
    stateMono s (ingestBlock s b).1 := by
  cases b with
  | text t => exact stateMono_refl s
  | otherTool tid n raw => exact stateMono_refl s
  | askUserQuestion tid qins =>
    simp only [ingestBlock]
    split
    · exact stateMono_refl s
    · exact stateMono_appendInteractions s _ _
  | exitPlanMode tid ptext =>
    simp only [ingestBlock]
    split
    · exact stateMono_refl s
    · exact stateMono_appendInteractions s _ _

theorem stateMono_ingestBlocks (s : SessionState) (l : List ContentBlock) :
    stateMono s (ingestBlocks s l).1 := by
  induction l generalizing s with
  | nil => exact stateMono_refl s
  | cons b rest ih =>
    exact stateMono_trans (stateMono_ingestBlock s b) (ih (ingestBlock s b).1)

theorem stateMono_ingest (s : SessionState) (m : Message) :
    stateMono s (ingest s m).1 :=
  stateMono_trans (stateMono_transcript s _) (stateMono_ingestBlocks _ m.content)

theorem stateMono_submitQuestion (s : SessionState) (id : String) (sel : List Nat)
    (polls : List String) : stateMono s (submitQuestion s id sel polls).1 :=
  stateMono_resolveQuestionFull s id (.multi sel) polls

theorem stateMono_sendMessageOp (s : SessionState) (uuid text : String)
    (polls : List String) : stateMono s (sendMessageOp s uuid text polls).1 := by
  unfold sendMessageOp
  cases h : activate s with
  | none => exact stateMono_transcript s _
  | some u =>
    cases u with
    | question q =>
      by_cases hm : q.multiSelect = true
      · simp only [hm, if_true]
        exact stateMono_trans (stateMono_transcript s _) (stateMono_submitQuestion _ _ _ _)
      · simp only [Bool.not_eq_true] at hm
        simp only [hm, Bool.false_eq_true, if_false]
        exact stateMono_trans (stateMono_transcript s _)
          (stateMono_resolveQuestionFull _ _ _ _)
    | plan p => exact stateMono_transcript s _
    | permission r => exact stateMono_transcript s _

theorem applyOp_stateMono (s : SessionState) (op : Op) :
    stateMono s (applyOp s op).1 := by
  cases op with
  | ingestMsg m => exact stateMono_ingest s m
  | resolveQ id r polls => exact stateMono_resolveQuestionFull s id r polls
  | resolvePl id a polls => exact stateMono_resolvePlanFull s id a polls
  | toggleQ id i => exact stateMono_toggleQuestion s id i
  | submitQ id sel polls => exact stateMono_submitQuestion s id sel polls
  | enqueuePerm r => exact stateMono_enqueuePermission s r
  | resolvePerm tid d => exact stateMono_resolvePermission s tid d
  | sendMsg uuid text polls => exact stateMono_sendMessageOp s uuid text polls

/-- C3: for every interaction unit and permission request, once its
answered/resolved flag is true, no operation of the Session Coordinator — including
a resolution dispatch that ends in `DeliveryTimeoutError` — sets it back to false:
local bookkeeping is never rolled back after a successful local transition. -/
theorem answered_monotonic (s : SessionState) (op : Op) (id : String) :
    (questionAnswered s id = true → questionAnswered (applyOp s op).1 id = true) ∧
    (planAnswered s id = true → planAnswered (applyOp s op).1 id = true) ∧
    (permResolved s id = true → permResolved (applyOp s op).1 id = true) :=
  ⟨(applyOp_stateMono s op).1 id, (applyOp_stateMono s op).2.1 id,
   (applyOp_stateMono s op).2.2 id⟩

/-- Witness for C3: in the concrete fixture state where question `t1-q0` is already
answered, a dispatch for `t1-q1` whose reconciliation window keeps showing the
sentinel ends in `DeliveryTimeoutError`, and `t1-q0` stays answered. -/
theorem answered_monotonic_witness :
    questionAnswered sampleResolved "t1-q0" = true ∧
    questionAnswered
      (applyOp sampleResolved (.resolveQ "t1-q1" (.single 1) ["x Enter to select"])).1
      "t1-q0" = true ∧
    (applyOp sampleResolved (.resolveQ "t1-q1" (.single 1) ["x Enter to select"])).2
      = .error .DeliveryTimeoutError :=
  ⟨by decide,
   (answered_monotonic sampleResolved
     (.resolveQ "t1-q1" (.single 1) ["x Enter to select"]) "t1-q0").1 (by decide),
   by decide⟩

/-! ### The Panel Controller's active-unit selection -/

theorem minSeqFirst_mem {l : List ActiveUnit} {u : ActiveUnit}
    (h : minSeqFirst l = some u) : u ∈ l := by
  induction l with
  | nil => cases h
  | cons a rest ih =>
    cases hrest : minSeqFirst rest with
    | none =>
      simp only [minSeqFirst, hrest] at h
      exact (Option.some.inj h) ▸ List.mem_cons_self a rest
    | some v =>
      simp only [minSeqFirst, hrest] at h
      by_cases hlt : v.seq < a.seq
      · rw [if_pos hlt] at h
        rw [Option.some.inj h] at hrest
        exact List.mem_cons_of_mem a (ih hrest)
      · rw [if_neg hlt] at h
        exact (Option.some.inj h) ▸ List.mem_cons_self a rest

theorem minSeqFirst_spec (l : List ActiveUnit) (hne : l ≠ []) :
    ∃ u l₁ l₂, minSeqFirst l = some u ∧ l = l₁ ++ u :: l₂ ∧
      (∀ v ∈ l₁, u.seq < v.seq) ∧ ∀ v ∈ l, u.seq ≤ v.seq := by
  induction l with
  | nil => exact absurd rfl hne
  | cons a rest ih =>
    by_cases hr : rest = []
    · subst hr
      refine ⟨a, [], [], rfl, rfl, by simp, ?_⟩
      intro v hv
      rw [List.mem_singleton] at hv
      exact hv ▸ Nat.le_refl _
    · obtain ⟨u, l₁, l₂, hmin, heq, hstrict, hle⟩ := ih hr
      by_cases hlt : u.seq < a.seq
      · refine ⟨u, a :: l₁, l₂, ?_, by rw [heq]; rfl, ?_, ?_⟩
        · simp only [minSeqFirst, hmin]
          rw [if_pos hlt]
        · intro v hv
          rcases List.mem_cons.mp hv with hv | hv
          · exact hv ▸ hlt
          · exact hstrict v hv
        · intro v hv
          rcases List.mem_cons.mp hv with hv | hv
          · exact hv ▸ Nat.le_of_lt hlt
          · exact hle v hv
      · refine ⟨a, [], rest, ?_, rfl, by simp, ?_⟩
        · simp only [minSeqFirst, hmin]
          rw [if_neg hlt]
        · intro v hv
          rcases List.mem_cons.mp hv with hv | hv
          · exact hv ▸ Nat.le_refl _
          · exact Nat.le_trans (Nat.le_of_not_lt hlt) (hle v hv)

theorem unitCandidate_none_iff (u : StoreUnit) :
    unitCandidate u = none ↔ unitPending u = [] := by
  cases u with
  | qset qs =>
    simp [unitCandidate, unitPending, Option.map_eq_none', List.find?_eq_none,
      List.filter_eq_nil_iff]
  | plan p => cases hp : p.answered <;> simp [unitCandidate, unitPending, hp]

theorem candidates_eq_nil_iff (s : SessionState) :
    candidates s = [] ↔ pendingInteractions s = [] ∧ listPending s = [] := by
  unfold candidates pendingInteractions
  rw [List.append_eq_nil, List.map_eq_nil_iff, List.filterMap_eq_nil_iff,
    List.flatten_eq_nil_iff]
  constructor
  · rintro ⟨h1, h2⟩
    refine ⟨fun l hl => ?_, h2⟩
    rw [List.mem_map] at hl
    obtain ⟨u, hu, rfl⟩ := hl
    exact (unitCandidate_none_iff u).1 (h1 u hu)
  · rintro ⟨h1, h2⟩
    refine ⟨fun u hu => ?_, h2⟩
    exact (unitCandidate_none_iff u).2 (h1 (unitPending u) (List.mem_map.mpr ⟨u, hu, rfl⟩))

/-- C1: for every committed session state, `activate()` returns at most one unit
(none when nothing is pending), and when at least one Question, Plan or
PermissionRequest is pending it returns exactly one — the earliest-created
unresolved candidate across the current QuestionSets' next unanswered Questions,
unanswered Plans and unresolved PermissionRequests, ties broken by arrival order. -/
theorem exactly_one_active (s : SessionState) :
    ((pendingInteractions s = [] ∧ listPending s = []) → activate s = none) ∧
    ((pendingInteractions s ≠ [] ∨ listPending s ≠ []) →
      ∃ u l₁ l₂, activate s = some u ∧ candidates s = l₁ ++ u :: l₂ ∧
        (∀ v ∈ l₁, u.seq < v.seq) ∧ ∀ v ∈ candidates s, u.seq ≤ v.seq) := by
  constructor
  · intro h
    have hc : candidates s = [] := (candidates_eq_nil_iff s).2 h
    unfold activate
    rw [hc]
    rfl
  · intro h
    have hne : candidates s ≠ [] := by
      intro hc
      rcases h with h | h
      · exact h ((candidates_eq_nil_iff s).1 hc).1
      · exact h ((candidates_eq_nil_iff s).1 hc).2
    exact minSeqFirst_spec (candidates s) hne

/-- Witness for C1: in the two-question fixture state the panel has pending units
and `activate()` picks the earliest-created one. -/
theorem exactly_one_active_witness :
    ∃ u l₁ l₂, activate sampleState = some u ∧ candidates sampleState = l₁ ++ u :: l₂ ∧
      (∀ v ∈ l₁, u.seq < v.seq) ∧ ∀ v ∈ candidates sampleState, u.seq ≤ v.seq :=
  (exactly_one_active sampleState).2 (Or.inl (by decide))

/-! ### Uniqueness of question ids and ordered exposure within a QuestionSet -/

theorem mem_allQuestions_of_mem_qset {s : SessionState} {qs : QuestionSet} {q : Question}
    (hu : StoreUnit.qset qs ∈ s.interactions) (hq : q ∈ qs.questions) :
    q ∈ allQuestions s := by
  unfold allQuestions
  rw [List.mem_flatten]
  exact ⟨qs.questions, List.mem_map.mpr ⟨.qset qs, hu, rfl⟩, hq⟩

theorem findQuestion_self {s : SessionState} {q : Question}
    (hwf : wellFormed s) (hq : q ∈ allQuestions s) :
    findQuestion s q.id = some q := by
  unfold findQuestion
  cases hfind : (allQuestions s).find? fun x => x.id == q.id with
  | none =>
    rw [List.find?_eq_none] at hfind
    exact absurd (by simp) (hfind q hq)
  | some q' =>
    have hmem := List.mem_of_find?_eq_some hfind
    have hid : q'.id = q.id := by
      have := List.find?_some hfind
      simpa [beq_iff_eq] using this
    rw [List.inj_on_of_nodup_map hwf hmem hq hid]

theorem candidates_question_find {s : SessionState} {q : Question}
    (h : ActiveUnit.question q ∈ candidates s) :
    ∃ qs : QuestionSet, StoreUnit.qset qs ∈ s.interactions ∧
      qs.questions.find? (fun x => !x.answered) = some q := by
  unfold candidates at h
  rw [List.mem_append] at h
  rcases h with h | h
  · rw [List.mem_filterMap] at h
    obtain ⟨u, hu, hc⟩ := h
    cases u with
    | qset qs =>
      refine ⟨qs, hu, ?_⟩
      simp only [unitCandidate] at hc
      cases hfind : qs.questions.find? fun x => !x.answered with
      | none => rw [hfind] at hc; cases hc
      | some q' =>
        rw [hfind, Option.map_some'] at hc
        rw [ActiveUnit.question.inj (Option.some.inj hc)]
    | plan p =>
      simp only [unitCandidate] at hc
      split at hc
      · cases hc
      · exact absurd (Option.some.inj hc) (by simp)
  · rw [List.mem_map] at h
    obtain ⟨r, _, hr⟩ := h
    cases hr

theorem candidates_question_pending {s : SessionState} {q : Question}
    (h : ActiveUnit.question q ∈ candidates s) :
    q ∈ allQuestions s ∧ q.answered = false := by
  obtain ⟨qs, hu, hfind⟩ := candidates_question_find h
  refine ⟨mem_allQuestions_of_mem_qset hu (List.mem_of_find?_eq_some hfind), ?_⟩
  have := List.find?_some hfind
  simpa using this

theorem id_mem_flatten {l : List StoreUnit} {qs : QuestionSet} {q : Question}
    (hu : StoreUnit.qset qs ∈ l) (hq : q ∈ qs.questions) :
    q.id ∈ ((l.map unitQuestions).flatten).map Question.id :=
  List.mem_map.mpr ⟨q, List.mem_flatten.mpr
    ⟨qs.questions, List.mem_map.mpr ⟨.qset qs, hu, rfl⟩, hq⟩, rfl⟩

theorem find?_unanswered_ne (tid : String) (q1 q2 : Question)
    (h1 : q1.answered = false) (hne : q1.id ≠ q2.id) :
    ∀ l : List StoreUnit,
      ((((l.map unitQuestions).flatten).map Question.id)).Nodup →
      StoreUnit.qset ⟨tid, [q1, q2]⟩ ∈ l →
      ∀ qs', StoreUnit.qset qs' ∈ l →
        qs'.questions.find? (fun x => !x.answered) ≠ some q2 := by
  intro l
  induction l with
  | nil => intro _ hmem; cases hmem
  | cons u rest ih =>
    intro hwf hmem qs' hqs' hfind
    rw [List.map_cons, List.flatten_cons, List.map_append, List.nodup_append] at hwf
    obtain ⟨_, hB, hD⟩ := hwf
    have hq2qs' : q2 ∈ qs'.questions := List.mem_of_find?_eq_some hfind
    have hq2sample : q2 ∈ ({ toolUseId := tid, questions := [q1, q2] } : QuestionSet).questions := by
      simp
    rcases List.mem_cons.mp hmem with hu | hmem'
    · rcases List.mem_cons.mp hqs' with hv | hqs''
      · have hqs : qs' = ⟨tid, [q1, q2]⟩ :=
          StoreUnit.qset.inj (hv.trans hu.symm)
        rw [hqs] at hfind
        simp only [List.find?_cons, h1, Bool.not_false] at hfind
        exact hne (congrArg Question.id (Option.some.inj hfind))
      · refine hD ?_ (id_mem_flatten hqs'' hq2qs')
        rw [← hu]
        refine List.mem_map.mpr ⟨q2, ?_, rfl⟩
        simp [unitQuestions]
    · rcases List.mem_cons.mp hqs' with hv | hqs''
      · refine hD ?_ (id_mem_flatten hmem' hq2sample)
        rw [← hv]
        refine List.mem_map.mpr ⟨q2, ?_, rfl⟩
        simpa [unitQuestions] using hq2qs'
      · exact ih hB hmem' qs' hqs'' hfind

/-- C2: for a QuestionSet with questions `[Q1, Q2]` in creation order, resolving `Q1`
marks `Q1` answered while leaving `Q2` unanswered, and the panel never exposes `Q2`
as the active unit while `Q1` is unanswered. -/
theorem ordered_resolution (s : SessionState) (tid : String) (q1 q2 : Question)
    (r : Resolution) (polls : List String)
    (hwf : wellFormed s)
    (hmem : StoreUnit.qset ⟨tid, [q1, q2]⟩ ∈ s.interactions)
    (h1 : q1.answered = false) (h2 : q2.answered = false) (hne : q1.id ≠ q2.id) :
    questionAnswered (resolveQuestionFull s q1.id r polls).1 q1.id = true ∧
    questionAnswered (resolveQuestionFull s q1.id r polls).1 q2.id = false ∧
    activate s ≠ some (.question q2) := by
  have hq1mem : q1 ∈ allQuestions s := mem_allQuestions_of_mem_qset hmem (by simp)
  have hq2mem : q2 ∈ allQuestions s := mem_allQuestions_of_mem_qset hmem (by simp)
  have hfindq1 : findQuestion s q1.id = some q1 := findQuestion_self hwf hq1mem
  have hres : (resolveQuestionFull s q1.id r polls).1
      = { mapQuestions (markQuestion q1.id r) s with
          dispatches :=
            (mapQuestions (markQuestion q1.id r) s).dispatches ++ [translate r] } := by
    simp only [resolveQuestionFull, hfindq1]
    rw [if_neg (by simp [h1])]
  have hall : allQuestions (resolveQuestionFull s q1.id r polls).1
      = (allQuestions s).map (markQuestion q1.id r) := by
    rw [hres]
    exact allQuestions_mapQuestions (markQuestion q1.id r) s
  refine ⟨?_, ?_, ?_⟩
  · unfold questionAnswered
    rw [hall, List.any_eq_true]
    refine ⟨markQuestion q1.id r q1, List.mem_map.mpr ⟨q1, hq1mem, rfl⟩, ?_⟩
    simp [markQuestion]
  · unfold questionAnswered
    rw [hall, List.any_eq_false]
    intro x hx
    rw [List.mem_map] at hx
    obtain ⟨q, hq, rfl⟩ := hx
    by_cases hq1 : q.id = q1.id
    · unfold markQuestion
      rw [if_pos (beq_iff_eq.mpr hq1)]
      simp only [Bool.and_eq_true, beq_iff_eq]
      intro hcon
      exact hne (hq1 ▸ hcon.1)
    · unfold markQuestion
      rw [if_neg (by simpa [beq_iff_eq] using hq1)]
      simp only [Bool.and_eq_true, beq_iff_eq]
      intro hcon
      have : q = q2 := List.inj_on_of_nodup_map hwf hq hq2mem hcon.1
      rw [this, h2] at hcon
      exact Bool.false_ne_true hcon.2
  · intro hact
    have hc : ActiveUnit.question q2 ∈ candidates s := minSeqFirst_mem hact
    obtain ⟨qs', hqs', hfind⟩ := candidates_question_find hc
    exact find?_unanswered_ne tid q1 q2 h1 hne s.interactions hwf hmem qs' hqs' hfind

/-- Witness for C2: the two-question fixture, resolving the first question with
option 0. -/
theorem ordered_resolution_witness :
    questionAnswered (resolveQuestionFull sampleState sampleQ1.id (.single 0) ["done"]).1
      sampleQ1.id = true ∧
    questionAnswered (resolveQuestionFull sampleState sampleQ1.id (.single 0) ["done"]).1
      sampleQ2.id = false ∧
    activate sampleState ≠ some (.question sampleQ2) :=
  ordered_resolution sampleState "t1" sampleQ1 sampleQ2 (.single 0) ["done"]
    (by unfold wellFormed; decide) (by decide) (by decide) (by decide) (by decide)

/-! ### Double-activation guard -/

theorem findQuestion_dispatch (s : SessionState) (d : List (List String)) (id : String) :
    findQuestion { s with dispatches := d } id = findQuestion s id := rfl

/-- C4: two rapid resolution attempts on the same pending single-select Question
produce exactly one keystroke dispatch and exactly one pending-to-answered
transition; the second attempt fails with `AlreadyAnsweredError` and changes
nothing — in particular it dispatches nothing. -/
theorem double_activation_guard (s : SessionState) (id : String) (r r' : Resolution)
    (polls polls' : List String) (q : Question)
    (hwf : wellFormed s)
    (hfind : findQuestion s id = some q)
    (hq : q.answered = false) (hms : q.multiSelect = false) :
    questionAnswered s id = false ∧
    (resolveQuestionFull s id r polls).1.dispatches = s.dispatches ++ [translate r] ∧
    questionAnswered (resolveQuestionFull s id r polls).1 id = true ∧
    resolveQuestionFull (resolveQuestionFull s id r polls).1 id r' polls'
      = ((resolveQuestionFull s id r polls).1, .error .AlreadyAnsweredError) := by
  have hqmem : q ∈ allQuestions s := List.mem_of_find?_eq_some hfind
  have hqid : q.id = id := by
    have := List.find?_some hfind
    simpa [beq_iff_eq] using this
  have hres : (resolveQuestionFull s id r polls).1
      = { mapQuestions (markQuestion id r) s with
          dispatches :=
            (mapQuestions (markQuestion id r) s).dispatches ++ [translate r] } := by
    simp only [resolveQuestionFull, hfind]
    rw [if_neg (by simp [hq])]
  have hall : allQuestions (resolveQuestionFull s id r polls).1
      = (allQuestions s).map (markQuestion id r) := by
    rw [hres]
    exact allQuestions_mapQuestions _ s
  have hmarked : (markQuestion id r q).answered = true := by
    simp [markQuestion, ← hqid]
  refine ⟨?_, ?_, ?_, ?_⟩
  · unfold questionAnswered
    rw [List.any_eq_false]
    intro x hx
    simp only [Bool.and_eq_true, beq_iff_eq]
    intro hcon
    have hxq : x = q := List.inj_on_of_nodup_map hwf hx hqmem (hcon.1.trans hqid.symm)
    rw [hxq, hq] at hcon
    exact Bool.false_ne_true hcon.2
  · rw [hres]
    rfl
  · unfold questionAnswered
    rw [hall, List.any_eq_true]
    refine ⟨markQuestion id r q, List.mem_map.mpr ⟨q, hqmem, rfl⟩, ?_⟩
    rw [Bool.and_eq_true]
    exact ⟨by rw [markQuestion_id, hqid, beq_self_eq_true], hmarked⟩
  · have hfind2 : findQuestion (resolveQuestionFull s id r polls).1 id
        = some (markQuestion id r q) := by
      rw [hres, findQuestion_dispatch,
        findQuestion_mapQuestions _ (markQuestion_id id r) s id, hfind, Option.map_some']
    set s' := (resolveQuestionFull s id r polls).1 with hs'
    show resolveQuestionFull s' id r' polls' = (s', .error .AlreadyAnsweredError)
    simp only [resolveQuestionFull, hfind2]
    rw [if_pos hmarked]

/-- Witness for C4: resolving the first fixture question twice in a row. -/
theorem double_activation_guard_witness :
    questionAnswered sampleState "t1-q0" = false ∧
    (resolveQuestionFull sampleState "t1-q0" (.single 0) ["done"]).1.dispatches
      = sampleState.dispatches ++ [translate (.single 0)] ∧
    questionAnswered (resolveQuestionFull sampleState "t1-q0" (.single 0) ["done"]).1
      "t1-q0" = true ∧
    resolveQuestionFull (resolveQuestionFull sampleState "t1-q0" (.single 0) ["done"]).1
        "t1-q0" (.single 1) ["x"]
      = ((resolveQuestionFull sampleState "t1-q0" (.single 0) ["done"]).1,
         .error .AlreadyAnsweredError) :=
  double_activation_guard sampleState "t1-q0" (.single 0) (.single 1) ["done"] ["x"]
    sampleQ1 (by unfold wellFormed; decide) (by decide) (by decide) (by decide)

/-! ### Permission Channel ordering -/

/-- C5: enqueuing `P1` then `P2` leaves both in `listPending()` in arrival order;
resolving `P1` removes it from `listPending()` in the same operation, leaving only
`P2`, with arrival order preserved throughout. -/
theorem permission_queue_order (s s1 s2 : SessionState) (a b : PermRequestInput)
    (hne : a.toolUseId ≠ b.toolUseId)
    (h1 : enqueuePermission s a = (s1, .ok ()))
    (h2 : enqueuePermission s1 b = (s2, .ok ()))
    (ha : s.standingRules.contains a.toolName = false)
    (hb : s.standingRules.contains b.toolName = false) :
    ∃ p1 p2 : PermissionRequest,
      p1.toolUseId = a.toolUseId ∧ p2.toolUseId = b.toolUseId ∧
      p1.resolved = false ∧ p2.resolved = false ∧
      listPending s2 = listPending s ++ [p1, p2] ∧
      ∃ s3, resolvePermission s2 a.toolUseId .approve = (s3, .ok ()) ∧
        listPending s3 = listPending s ++ [p2] := by
  have hg1 : (s.permissions.any fun p => p.toolUseId == a.toolUseId) = false := by
    by_contra hg
    rw [Bool.not_eq_false] at hg
    simp only [enqueuePermission, hg, if_true] at h1
    exact absurd (congrArg Prod.snd h1) (by simp)
  have hs1 : s1 = { s with
      permissions := s.permissions ++
        [{ toolUseId := a.toolUseId, sessionId := a.sessionId, toolName := a.toolName,
           toolInput := a.toolInput, receivedAt := a.receivedAt, resolved := false,
           decision := none, seq := s.nextSeq }],
      nextSeq := s.nextSeq + 1 } := by
    simp only [enqueuePermission, hg1, Bool.false_eq_true, if_false, ha,
      Prod.mk.injEq] at h1
    exact h1.1.symm
  have hg2 : (s1.permissions.any fun p => p.toolUseId == b.toolUseId) = false := by
    by_contra hg
    rw [Bool.not_eq_false] at hg
    simp only [enqueuePermission, hg, if_true] at h2
    exact absurd (congrArg Prod.snd h2) (by simp)
  have hrules1 : s1.standingRules = s.standingRules := by rw [hs1]
  have hb1 : s1.standingRules.contains b.toolName = false := by
    rw [hrules1]
    exact hb
  have hs2 : s2 = { s1 with
      permissions := s1.permissions ++
        [{ toolUseId := b.toolUseId, sessionId := b.sessionId, toolName := b.toolName,
           toolInput := b.toolInput, receivedAt := b.receivedAt, resolved := false,
           decision := none, seq := s1.nextSeq }],
      nextSeq := s1.nextSeq + 1 } := by
    simp only [enqueuePermission, hg2, Bool.false_eq_true, if_false, hb1,
      Prod.mk.injEq] at h2
    exact h2.1.symm
  set pa : PermissionRequest :=
    { toolUseId := a.toolUseId, sessionId := a.sessionId, toolName := a.toolName,
      toolInput := a.toolInput, receivedAt := a.receivedAt, resolved := false,
      decision := none, seq := s.nextSeq } with hpa
  set pb : PermissionRequest :=
    { toolUseId := b.toolUseId, sessionId := b.sessionId, toolName := b.toolName,
      toolInput := b.toolInput, receivedAt := b.receivedAt, resolved := false,
      decision := none, seq := s1.nextSeq } with hpb
  have hperm2 : s2.permissions = s.permissions ++ [pa, pb] := by
    rw [hs2, hs1]
    simp [List.append_assoc]
  have hold : ∀ p ∈ s.permissions, (p.toolUseId == a.toolUseId) = false := by
    intro p hp
    rw [List.any_eq_false] at hg1
    simpa using hg1 p hp
  have hmark_old : (s.permissions.map (markPerm a.toolUseId .approve)) = s.permissions := by
    have := List.map_congr_left (l := s.permissions)
      (f := markPerm a.toolUseId .approve) (g := fun p => p)
      (fun p hp => by unfold markPerm; rw [if_neg (by simp [hold p hp])])
    simpa using this
  have hfindp : (s2.permissions.find? fun p => p.toolUseId == a.toolUseId) = some pa := by
    rw [hperm2, List.find?_append]
    have : (s.permissions.find? fun p => p.toolUseId == a.toolUseId) = none := by
      rw [List.find?_eq_none]
      intro p hp
      simp [hold p hp]
    rw [this, Option.none_or]
    simp [List.find?_cons]
  have hres : resolvePermission s2 a.toolUseId .approve
      = ({ s2 with permissions := s2.permissions.map (markPerm a.toolUseId .approve) },
         .ok ()) := by
    simp only [resolvePermission, hfindp]
    rw [if_neg (by simp)]
  refine ⟨pa, pb, rfl, rfl, rfl, rfl, ?_, ?_⟩
  · unfold listPending
    rw [hperm2, List.filter_append]
    simp
  · refine ⟨_, hres, ?_⟩
    unfold listPending
    simp only [hperm2, List.map_append, hmark_old]
    rw [List.filter_append]
    have hmpa : markPerm a.toolUseId .approve pa
        = { pa with resolved := true, decision := some .approve } := by
      unfold markPerm
      rw [if_pos (by simp)]
    have hmpb : markPerm a.toolUseId .approve pb = pb := by
      unfold markPerm
      rw [if_neg (by simp [hpb, Ne.symm hne])]
    simp [hmpa, hmpb]

/-- Witness for C5: the `Bash` and `Write` permission fixtures enqueued into the
empty session. -/
theorem permission_queue_order_witness :
    ∃ p1 p2 : PermissionRequest,
      p1.toolUseId = permA.toolUseId ∧ p2.toolUseId = permB.toolUseId ∧
      p1.resolved = false ∧ p2.resolved = false ∧
      listPending permState2 = listPending initialState ++ [p1, p2] ∧
      ∃ s3, resolvePermission permState2 permA.toolUseId .approve = (s3, .ok ()) ∧
        listPending s3 = listPending initialState ++ [p2] :=
  permission_queue_order initialState permState1 permState2 permA permB
    (by decide) (by decide) (by decide) (by decide) (by decide)

/-! ### Multi-select toggling and submission -/

/-- C6: on the multi-select fixture with options `[Auth, API, DB]`, after
`toggle(0); toggle(2)` the selection is exactly `{0, 2}`; submitting that set
resolves the question with exactly that set, and a second submit fails with
`AlreadyAnsweredError`. -/
theorem multiselect_scenario :
    (findQuestion multiToggled "tm-q0").map Question.selection = some [0, 2] ∧
    (submitQuestion multiToggled "tm-q0" [0, 2] ["ok"]).2 = .ok () ∧
    (findQuestion multiSubmitted "tm-q0").map Question.answered = some true ∧
    (findQuestion multiSubmitted "tm-q0").map Question.resolution
      = some (some (.multi [0, 2])) ∧
    (submitQuestion multiSubmitted "tm-q0" [0, 2] ["ok"]).2
      = .error .AlreadyAnsweredError := by
  decide

theorem toggleSel_toggleSel_mem (i j : Nat) (sel : List Nat) :
    j ∈ toggleSel i (toggleSel i sel) ↔ j ∈ sel := by
  by_cases hc : i ∈ sel
  · have h1 : toggleSel i sel = sel.filter fun x => x != i := by
      unfold toggleSel
      rw [if_pos (by simpa using hc)]
    have h2 : toggleSel i (toggleSel i sel) = (sel.filter fun x => x != i) ++ [i] := by
      rw [h1]
      unfold toggleSel
      rw [if_neg (by simp [List.mem_filter])]
    rw [h2]
    by_cases hj : j = i
    · subst hj
      simp [List.mem_append, hc]
    · simp [List.mem_append, List.mem_filter, hj]
  · have h1 : toggleSel i sel = sel ++ [i] := by
      unfold toggleSel
      rw [if_neg (by simpa using hc)]
    have h2 : toggleSel i (toggleSel i sel) = sel := by
      rw [h1]
      unfold toggleSel
      rw [if_pos (by simp)]
      rw [List.filter_append]
      have hself : (sel.filter fun x => x != i) = sel := by
        rw [List.filter_eq_self]
        intro x hx
        simp only [bne_iff_ne, ne_eq]
        exact fun he => hc (he ▸ hx)
      simp [hself]
    rw [h2]

theorem toggleMark_toggleMark (id : String) (i : Nat) (q : Question) :
    (∀ j, j ∈ (toggleMark id i (toggleMark id i q)).selection ↔ j ∈ q.selection) ∧
    (toggleMark id i (toggleMark id i q)).answered = q.answered ∧
    (toggleMark id i (toggleMark id i q)).multiSelect = q.multiSelect ∧
    (toggleMark id i (toggleMark id i q)).id = q.id := by
  by_cases hg : (q.id == id && q.multiSelect && !q.answered) = true
  · have h1 : toggleMark id i q = { q with selection := toggleSel i q.selection } := by
      unfold toggleMark
      rw [if_pos hg]
    have h2 : toggleMark id i (toggleMark id i q)
        = { q with selection := toggleSel i (toggleSel i q.selection) } := by
      rw [h1]
      unfold toggleMark
      rw [if_pos hg]
    rw [h2]
    exact ⟨fun j => toggleSel_toggleSel_mem i j q.selection, rfl, rfl, rfl⟩
  · have h1 : toggleMark id i q = q := by
      unfold toggleMark
      rw [if_neg hg]
    rw [h1, h1]
    exact ⟨fun j => Iff.rfl, rfl, rfl, rfl⟩

/-- C7: toggling the same option index twice on a question leaves its selection set
(and every other field) as before the pair of calls — toggle is an involution on the
selection state. -/
theorem toggle_involution (s : SessionState) (id : String) (i : Nat) (q : Question)
    (hfind : findQuestion s id = some q) (hms : q.multiSelect = true) :
    ∃ q', findQuestion (toggleQuestion (toggleQuestion s id i) id i) id = some q' ∧
      (∀ j, j ∈ q'.selection ↔ j ∈ q.selection) ∧
      q'.answered = q.answered ∧ q'.multiSelect = q.multiSelect ∧ q'.id = q.id := by
  have hf : findQuestion (toggleQuestion (toggleQuestion s id i) id i) id
      = some (toggleMark id i (toggleMark id i q)) := by
    unfold toggleQuestion
    rw [findQuestion_mapQuestions _ (toggleMark_id id i),
        findQuestion_mapQuestions _ (toggleMark_id id i), hfind]
    rfl
  obtain ⟨hmem, hans, hmulti, hid⟩ := toggleMark_toggleMark id i q
  exact ⟨_, hf, hmem, hans, hmulti, hid⟩

/-- Witness for C7: toggling option 1 twice on the multi-select fixture. -/
theorem toggle_involution_witness :
    ∃ q', findQuestion (toggleQuestion (toggleQuestion multiState "tm-q0" 1) "tm-q0" 1)
        "tm-q0" = some q' ∧
      (∀ j, j ∈ q'.selection ↔ j ∈ multiQ.selection) ∧
      q'.answered = multiQ.answered ∧ q'.multiSelect = multiQ.multiSelect ∧
      q'.id = multiQ.id :=
  toggle_involution multiState "tm-q0" 1 multiQ (by decide) (by decide)

/-! ### Frame property between the two stores -/

theorem interactions_resolvePermission (s : SessionState) (tid : String) (d : Decision) :
    (resolvePermission s tid d).1.interactions = s.interactions := by
  unfold resolvePermission
  split
  · rfl
  · split
    · rfl
    · cases d <;> rfl

/-- C8: resolving a Question or a Plan leaves the Permission Channel's
`listPending()` unchanged, and resolving a PermissionRequest leaves every Question's
and Plan's state — hence the Interaction Store's `pending()` — unchanged: the two
stores are disjoint. -/
theorem store_channel_frame (s : SessionState) (id tid : String) (r : Resolution)
    (a : Bool) (d : Decision) (polls : List String) :
    listPending (resolveQuestionFull s id r polls).1 = listPending s ∧
    listPending (resolvePlanFull s id a polls).1 = listPending s ∧
    allQuestions (resolvePermission s tid d).1 = allQuestions s ∧
    allPlans (resolvePermission s tid d).1 = allPlans s ∧
    pendingInteractions (resolvePermission s tid d).1 = pendingInteractions s := by
  have hint := interactions_resolvePermission s tid d
  refine ⟨?_, ?_, ?_, ?_, ?_⟩
  · unfold resolveQuestionFull
    split
    · rfl
    · split
      · rfl
      · rfl
  · unfold resolvePlanFull
    split
    · rfl
    · split
      · rfl
      · rfl
  · unfold allQuestions
    rw [hint]
  · unfold allPlans
    rw [hint]
  · unfold pendingInteractions
    rw [hint]

/-! ### Free-text resolution of the active question -/

/-- C9: when a pending single-select Question is the active unit, sending a
free-text message implicitly resolves it as an "other" answer, marking it answered
with the typed text as resolution payload. -/
theorem free_text_resolves_question (s : SessionState) (uuid text : String)
    (polls : List String) (q : Question)
    (hwf : wellFormed s)
    (hact : activate s = some (.question q))
    (hms : q.multiSelect = false) :
    ∃ s' res, sendMessageOp s uuid text polls = (s', res) ∧
      questionAnswered s' q.id = true ∧
      findQuestion s' q.id
        = some { q with answered := true, resolution := some (.other text) } := by
  have hc : ActiveUnit.question q ∈ candidates s := minSeqFirst_mem hact
  obtain ⟨hqmem, hqans⟩ := candidates_question_pending hc
  have hfind : findQuestion s q.id = some q := findQuestion_self hwf hqmem
  set s0 : SessionState :=
    { s with transcript := s.transcript ++ [userMessage uuid text] } with hs0
  have hsend : sendMessageOp s uuid text polls
      = resolveQuestionFull s0 q.id (.other text) polls := by
    simp only [sendMessageOp, hact]
    rw [if_neg (by simp [hms])]
  have hfind0 : findQuestion s0 q.id = some q := hfind
  have hres : (resolveQuestionFull s0 q.id (.other text) polls).1
      = { mapQuestions (markQuestion q.id (.other text)) s0 with
          dispatches := (mapQuestions (markQuestion q.id (.other text)) s0).dispatches
            ++ [translate (.other text)] } := by
    simp only [resolveQuestionFull, hfind0]
    rw [if_neg (by simp [hqans])]
  refine ⟨(resolveQuestionFull s0 q.id (.other text) polls).1,
          (resolveQuestionFull s0 q.id (.other text) polls).2, ?_, ?_, ?_⟩
  · rw [hsend]
  · have hall : allQuestions (resolveQuestionFull s0 q.id (.other text) polls).1
        = (allQuestions s).map (markQuestion q.id (.other text)) := by
      rw [hres]
      exact allQuestions_mapQuestions _ s0
    unfold questionAnswered
    rw [hall, List.any_eq_true]
    exact ⟨markQuestion q.id (.other text) q, List.mem_map.mpr ⟨q, hqmem, rfl⟩,
      by simp [markQuestion]⟩
  · rw [hres, findQuestion_dispatch,
      findQuestion_mapQuestions _ (markQuestion_id _ _), hfind0, Option.map_some']
    simp [markQuestion]

/-- Witness for C9: sending free text while the first fixture question is active. -/
theorem free_text_resolves_question_witness :
    ∃ s' res, sendMessageOp sampleState "u9" "Green - like grass" ["done"] = (s', res) ∧
      questionAnswered s' sampleQ1.id = true ∧
      findQuestion s' sampleQ1.id
        = some { sampleQ1 with answered := true, resolution := some (.other "Green - like grass") } :=
  free_text_resolves_question sampleState "u9" "Green - like grass" ["done"] sampleQ1
    (by unfold wellFormed; decide) (by decide) (by decide)

/-! ### Sentinel reconciliation -/

/-- C10: the outstanding-prompt sentinel is the literal string `"Enter to select"`;
a resolution dispatch reports success only when some reconciliation poll of the
captured pane no longer contains the sentinel, and while every poll still shows the
sentinel the dispatch never reports success (it reports `DeliveryTimeoutError`
instead). -/
theorem sentinel_delivery (s : SessionState) (id : String) (r : Resolution)
    (polls : List String) :
    sentinel = "Enter to select" ∧
    ((resolveQuestionFull s id r polls).2 = .ok () →
      ∃ pane ∈ polls, strContains pane sentinel = false) ∧
    ((∀ pane ∈ polls, strContains pane sentinel = true) →
      (resolveQuestionFull s id r polls).2 ≠ .ok ()) := by
  refine ⟨rfl, ?_, ?_⟩
  · intro h
    have hrec : reconcile polls = .ok () := by
      simp only [resolveQuestionFull] at h
      split at h
      · cases h
      · split at h
        · cases h
        · exact h
    unfold reconcile at hrec
    by_cases hany : (polls.any fun p => !hasPrompt p) = true
    · rw [List.any_eq_true] at hany
      obtain ⟨p, hp, hnp⟩ := hany
      refine ⟨p, hp, ?_⟩
      simpa [hasPrompt] using hnp
    · rw [if_neg (by simpa using hany)] at hrec
      cases hrec
  · intro hall h
    have hany : (polls.any fun p => !hasPrompt p) = false := by
      rw [List.any_eq_false]
      intro p hp
      simp [hasPrompt, hall p hp]
    simp only [resolveQuestionFull] at h
    split at h
    · cases h
    · split at h
      · cases h
      · unfold reconcile at h
        rw [if_neg (by simp [hany])] at h
        cases h

/-- Witness for C10: a successful dispatch on the fixture, with a poll window whose
pane no longer shows the sentinel. -/
theorem sentinel_delivery_witness :
    ∃ pane ∈ ["done"], strContains pane sentinel = false :=
  (sentinel_delivery sampleState "t1-q0" (.single 0) ["done"]).2.1 (by decide)

end ClaudeGo
